import Mathlib

/-!
Verification development for the `websocket-rs` repository (src/main.rs),
a minimal single-connection WebSocket server.

Shallow embedding conventions:
* Rust `u8`/`u16`/`u64`/`usize` values are `Nat`, with an explicit `% 2^w`
  exactly where Rust truncates (`as u8`, `as u16`, `as u64`).
* Fallible code (indexing that can panic, `unwrap`, the `panic!` arm of
  `From<u8> for Opcode`, the `todo!` dispatch arm) is `Option`-valued:
  `none` is the panic/abort outcome.
* Byte buffers are `List Nat`; strings handled by the HTTP parser are
  `List Char` (Rust's `&str` viewed as its character sequence).
-/

/-- Big-endian bytes of a `u16` value `v` (Rust `u16::to_be_bytes`);
`v` is already reduced mod `2^16` at call sites, mirroring `as u16`. -/
def u16_be_bytes (v : Nat) : List Nat :=
  [v / 2 ^ 8 % 256, v % 256]

/-- Big-endian bytes of a `u64` value (Rust `u64::to_be_bytes`). -/
def u64_be_bytes (v : Nat) : List Nat :=
  [v / 2 ^ 56 % 256, v / 2 ^ 48 % 256, v / 2 ^ 40 % 256, v / 2 ^ 32 % 256,
   v / 2 ^ 24 % 256, v / 2 ^ 16 % 256, v / 2 ^ 8 % 256, v % 256]

/-- Rust `u16::from_be_bytes([a, b])` on byte values. -/
def u16_from_be (a b : Nat) : Nat := a * 2 ^ 8 + b

/-- Rust `usize::from_be_bytes` on an 8-byte big-endian value. -/
def u64_from_be (a b c d e f g h : Nat) : Nat :=
  a * 2 ^ 56 + b * 2 ^ 48 + c * 2 ^ 40 + d * 2 ^ 32 +
  e * 2 ^ 24 + f * 2 ^ 16 + g * 2 ^ 8 + h

/-- The `Opcode` enumeration (src/main.rs:73-81). -/
inductive Opcode where
  | continuation
  | text
  | binary
  | close
  | ping
  | pong
deriving DecidableEq

/-- Shallow embedding of `impl From<u8> for Opcode` (src/main.rs:98-110):
matches on `byte & 0x0F`; the `panic!("Invalid opcode")` arm is `none`. -/
def Opcode.from_u8 (byte : Nat) : Option Opcode :=
  match byte &&& 0x0F with
  | 0x0 => some .continuation
  | 0x1 => some .text
  | 0x2 => some .binary
  | 0x8 => some .close
  | 0x9 => some .ping
  | 0xA => some .pong
  | _ => none

/-- Shallow embedding of `impl From<Opcode> for u8` (src/main.rs:112-123). -/
def Opcode.to_u8 : Opcode → Nat
  | .continuation => 0x0
  | .text => 0x1
  | .binary => 0x2
  | .close => 0x8
  | .ping => 0x9
  | .pong => 0xA

/-- The `Frame` struct (src/main.rs:83-96).  The Rust `[u8; 4]` masking key
is a `List Nat`; its length-4 property is carried as a hypothesis where
needed.  `payload_len` is `usize`, so `Nat` with a `< 2^64` hypothesis. -/
structure Frame where
  fin : Bool
  rsv1 : Bool
  rsv2 : Bool
  rsv3 : Bool
  opcode : Opcode
  mask : Bool
  payload_len : Nat
  masking_key : Option (List Nat)
  payload : List Nat
deriving DecidableEq

/-- Shallow embedding of `Frame::new` (src/main.rs:126-143). -/
def Frame.new (opcode : Opcode) (payload : Option (List Nat)) : Frame :=
  match payload with
  | some payload =>
    { fin := true, rsv1 := false, rsv2 := false, rsv3 := false,
      opcode := opcode, mask := false, payload_len := payload.length,
      masking_key := none, payload := payload }
  | none =>
    { fin := true, rsv1 := false, rsv2 := false, rsv3 := false,
      opcode := opcode, mask := false, payload_len := 0,
      masking_key := none, payload := [] }

/-- First header byte pushed by `Frame::to_bytes` (src/main.rs:148-154):
`fin << 7 | rsv1 << 6 | rsv2 << 5 | rsv3 << 4 | u8::from(opcode)`. -/
def byte0 (fin r1 r2 r3 : Bool) (op : Opcode) : Nat :=
  (fin.toNat <<< 7) ||| (r1.toNat <<< 6) ||| (r2.toNat <<< 5) |||
  (r3.toNat <<< 4) ||| op.to_u8

/-- The mask-bit/length bytes pushed by `Frame::to_bytes`
(src/main.rs:156-164): `mask << 7 | len` for `len < 126`, else the 126/127
selector followed by the big-endian extended length (`as u16`, `as u64`
truncations made explicit as `% 2^16`, `% 2^64`). -/
def lenField (mask : Bool) (payload_len : Nat) : List Nat :=
  if payload_len < 126 then
    [(mask.toNat <<< 7) ||| (payload_len % 256)]
  else if payload_len < 65536 then
    ((mask.toNat <<< 7) ||| 126) :: u16_be_bytes (payload_len % 2 ^ 16)
  else
    ((mask.toNat <<< 7) ||| 127) :: u64_be_bytes (payload_len % 2 ^ 64)

/-- XOR masking loop of the codec: `byte ^ key[i % 4]` for each payload
byte, with `i` the running byte index (src/main.rs:170-176 when encoding,
src/main.rs:211-216 when decoding — the same computation both ways). -/
def maskWith (key : List Nat) : Nat → List Nat → List Nat
  | _, [] => []
  | i, b :: rest => (b ^^^ key.getD (i % 4) 0) :: maskWith key (i + 1) rest

/-- Shallow embedding of `Frame::to_bytes` (src/main.rs:145-179).
`none` models the `self.masking_key.unwrap()` panic, which Rust hits
exactly when `mask` is true but no key is present. -/
def Frame.to_bytes (f : Frame) : Option (List Nat) :=
  let head := byte0 f.fin f.rsv1 f.rsv2 f.rsv3 f.opcode :: lenField f.mask f.payload_len
  if f.mask then
    match f.masking_key with
    | none => none
    | some key => some (head ++ key ++ maskWith key 0 f.payload)
  else
    some (head ++ f.payload)

/-- Tail of the decoder after the cursor `i` has passed the length field
(src/main.rs:202-219): read the 4-byte masking key when the mask bit is
set, then slice `buffer[i..i + payload_len]`, unmasking if masked.  The
list `rest` is `buffer[i..]`; a failed slice (Rust index panic because the
buffer is too short) is `none`. -/
def finishDecode (fin r1 r2 r3 : Bool) (op : Opcode) (mask : Bool)
    (payload_len : Nat) (rest : List Nat) : Option Frame :=
  if mask then
    match rest with
    | k0 :: k1 :: k2 :: k3 :: tail =>
      if tail.length < payload_len then none
      else some { fin := fin, rsv1 := r1, rsv2 := r2, rsv3 := r3,
                  opcode := op, mask := mask, payload_len := payload_len,
                  masking_key := some [k0, k1, k2, k3],
                  payload := maskWith [k0, k1, k2, k3] 0 (tail.take payload_len) }
    | _ => none
  else
    if rest.length < payload_len then none
    else some { fin := fin, rsv1 := r1, rsv2 := r2, rsv3 := r3,
                opcode := op, mask := mask, payload_len := payload_len,
                masking_key := none, payload := rest.take payload_len }

/-- Shallow embedding of `impl From<&[u8]> for Frame` (src/main.rs:182-233).
Byte accesses `buffer[0]`, `buffer[1]`, `buffer[2..4]`, `buffer[2..10]` are
the explicit list patterns (the catch-all is the Rust out-of-bounds panic,
i.e. `none`); the invalid-opcode panic of `Opcode::from` is also `none`.
The running cursor `i` of the source (2, 4, or 10, plus 4 when masked) is
constant in each branch, so each branch hands `buffer[i..]` to
`finishDecode` directly. -/
def Frame.from_bytes (buffer : List Nat) : Option Frame :=
  match buffer with
  | b0 :: b1 :: rest =>
    match Opcode.from_u8 b0 with
    | none => none
    | some opcode =>
      let fin := b0 &&& 0x80 != 0
      let rsv1 := b0 &&& 0x40 != 0
      let rsv2 := b0 &&& 0x20 != 0
      let rsv3 := b0 &&& 0x10 != 0
      let mask := b1 &&& 0x80 != 0
      if b1 &&& 0x7F = 126 then
        match rest with
        | b2 :: b3 :: rest2 =>
          finishDecode fin rsv1 rsv2 rsv3 opcode mask (u16_from_be b2 b3) rest2
        | _ => none
      else if b1 &&& 0x7F = 127 then
        match rest with
        | b2 :: b3 :: b4 :: b5 :: b6 :: b7 :: b8 :: b9 :: rest2 =>
          finishDecode fin rsv1 rsv2 rsv3 opcode mask
            (u64_from_be b2 b3 b4 b5 b6 b7 b8 b9) rest2
        | _ => none
      else
        finishDecode fin rsv1 rsv2 rsv3 opcode mask (b1 &&& 0x7F) rest
  | _ => none

/-- Bytes of the fixed suffix `" (echoed)"` appended by `echo`. -/
def echoSuffix : List Nat := [32, 40, 101, 99, 104, 111, 101, 100, 41]

/-- Shallow embedding of `echo` (src/main.rs:235-240). -/
def echo (payload : List Nat) : List Nat := payload ++ echoSuffix

/-- The per-connection state of §3 of the spec: created awaiting the
handshake, `opened` once the upgrade response is written
(`is_websocket = true` in src/main.rs:367), `closed` after the Close
reply's `break` (src/main.rs:280) ends the connection's loop. -/
inductive ConnectionState where
  | awaitingHandshake
  | opened
  | closed
deriving DecidableEq

/-- One observable output of a session step: a frame written to the
stream, the raw handshake response text, or the `sleep(Duration::from_secs n)`
stall between the two echo writes (src/main.rs:271). -/
inductive WsAction where
  | send (frame : Frame)
  | sendRaw (text : List Char)
  | sleepSecs (n : Nat)
deriving DecidableEq

/-- Opcode dispatch of the open-connection arm (src/main.rs:263-283):
Text echoes twice around a 3-second sleep and keeps the loop running;
Close replies with an empty Close frame and breaks the loop (`closed`);
every other opcode hits `todo!`, modelled as `none`. -/
def dispatchFrame (frame : Frame) : Option (List WsAction × ConnectionState) :=
  if frame.opcode = Opcode.text then
    let response := Frame.new Opcode.text (some (echo frame.payload))
    some ([WsAction.send response, WsAction.sleepSecs 3, WsAction.send response],
          ConnectionState.opened)
  else if frame.opcode = Opcode.close then
    some ([WsAction.send (Frame.new Opcode.close none)], ConnectionState.closed)
  else none

/-- UTF-8 bytes of one character, as Rust produces them when hashing the
`String` in src/main.rs:350-353. -/
def charUtf8 (c : Char) : List Nat :=
  let n := c.toNat
  if n < 0x80 then [n]
  else if n < 0x800 then
    [0xC0 ||| (n >>> 6), 0x80 ||| (n &&& 0x3F)]
  else if n < 0x10000 then
    [0xE0 ||| (n >>> 12), 0x80 ||| ((n >>> 6) &&& 0x3F), 0x80 ||| (n &&& 0x3F)]
  else
    [0xF0 ||| (n >>> 18), 0x80 ||| ((n >>> 12) &&& 0x3F),
     0x80 ||| ((n >>> 6) &&& 0x3F), 0x80 ||| (n &&& 0x3F)]

/-- UTF-8 byte sequence of a character string. -/
def utf8Bytes (s : List Char) : List Nat := (s.map charUtf8).flatten

/-- Modelled from the spec (§4.2 step 4 names a 160-bit digest, i.e.
SHA-1): the `sha1` crate is an external collaborator, so the algorithm is
taken from its published definition (RFC 3174).  Round constants. -/
def sha1K (t : Nat) : Nat :=
  if t < 20 then 0x5A827999
  else if t < 40 then 0x6ED9EBA1
  else if t < 60 then 0x8F1BBCDC
  else 0xCA62C1D6

/-- 32-bit left rotation on a word `x < 2^32`. -/
def rotl32 (n x : Nat) : Nat :=
  ((x <<< n) % 2 ^ 32) ||| (x >>> (32 - n))

/-- SHA-1 round function (choice / parity / majority / parity). -/
def sha1F (t b c d : Nat) : Nat :=
  if t < 20 then (b &&& c) ||| ((b ^^^ 0xFFFFFFFF) &&& d)
  else if t < 40 then b ^^^ c ^^^ d
  else if t < 60 then (b &&& c) ||| (b &&& d) ||| (c &&& d)
  else b ^^^ c ^^^ d

/-- Pack bytes into big-endian 32-bit words (4 bytes each). -/
def bytesToWords : List Nat → List Nat
  | a :: b :: c :: d :: rest =>
    ((a <<< 24) ||| (b <<< 16) ||| (c <<< 8) ||| d) :: bytesToWords rest
  | _ => []

/-- Expand a 16-word block to the 80-word SHA-1 message schedule:
`n` more words are appended, each `rotl1` of the XOR of the words 3, 8,
14 and 16 places back. -/
def sha1Expand : Nat → List Nat → List Nat
  | 0, acc => acc
  | n + 1, acc =>
    let t := acc.length
    sha1Expand n (acc ++ [rotl32 1 (acc.getD (t - 3) 0 ^^^ acc.getD (t - 8) 0 ^^^
                                    acc.getD (t - 14) 0 ^^^ acc.getD (t - 16) 0)])

/-- The 80 SHA-1 rounds: `t` is the round index, the list holds the
remaining schedule words. -/
def sha1Rounds : Nat → List Nat → Nat × Nat × Nat × Nat × Nat → Nat × Nat × Nat × Nat × Nat
  | _, [], st => st
  | t, wt :: rest, (a, b, c, d, e) =>
    let temp := (rotl32 5 a + sha1F t b c d + e + sha1K t + wt) % 2 ^ 32
    sha1Rounds (t + 1) rest (temp, a, rotl32 30 b, c, d)

/-- Compress one 16-word block into the running 5-word state. -/
def sha1Compress (h : List Nat) (block : List Nat) : List Nat :=
  let w := sha1Expand 64 block
  match h with
  | [h0, h1, h2, h3, h4] =>
    match sha1Rounds 0 w (h0, h1, h2, h3, h4) with
    | (a, b, c, d, e) =>
      [(h0 + a) % 2 ^ 32, (h1 + b) % 2 ^ 32, (h2 + c) % 2 ^ 32,
       (h3 + d) % 2 ^ 32, (h4 + e) % 2 ^ 32]
  | _ => h

/-- Fold the compression over consecutive 16-word blocks. -/
def sha1Blocks (h : List Nat) : List Nat → List Nat
  | w0 :: w1 :: w2 :: w3 :: w4 :: w5 :: w6 :: w7 ::
    w8 :: w9 :: w10 :: w11 :: w12 :: w13 :: w14 :: w15 :: rest =>
    sha1Blocks (sha1Compress h [w0, w1, w2, w3, w4, w5, w6, w7,
                                w8, w9, w10, w11, w12, w13, w14, w15]) rest
  | _ => h

/-- Big-endian bytes of a 32-bit word. -/
def u32_be_bytes (v : Nat) : List Nat :=
  [v / 2 ^ 24 % 256, v / 2 ^ 16 % 256, v / 2 ^ 8 % 256, v % 256]

/-- SHA-1 of a byte sequence: pad with `0x80`, zeros to 56 mod 64, and the
64-bit big-endian bit length, then compress block by block. -/
def sha1 (msg : List Nat) : List Nat :=
  let len := msg.length
  let padded := msg ++ 0x80 :: List.replicate ((120 - (len + 1) % 64) % 64) 0 ++
                u64_be_bytes (8 * len % 2 ^ 64)
  let hs := sha1Blocks [0x67452301, 0xEFCDAB89, 0x98BADCFE, 0x10325476, 0xC3D2E1F0]
              (bytesToWords padded)
  (hs.map u32_be_bytes).flatten

/-- Modelled from the spec (§4.2 step 4, base64): the `base64` crate's
STANDARD engine is an external collaborator; RFC 4648 alphabet. -/
def base64Alphabet : List Char :=
  "ABCDEFGHIJKLMNOPQRSTUVWXYZabcdefghijklmnopqrstuvwxyz0123456789+/".data

/-- One alphabet character of a 6-bit value. -/
def b64Char (n : Nat) : Char := base64Alphabet.getD n 'A'

/-- Standard base64 with `=` padding over 3-byte groups. -/
def base64Encode : List Nat → List Char
  | [] => []
  | [b1] =>
    [b64Char (b1 >>> 2), b64Char ((b1 &&& 3) <<< 4), '=', '=']
  | [b1, b2] =>
    [b64Char (b1 >>> 2), b64Char (((b1 &&& 3) <<< 4) ||| (b2 >>> 4)),
     b64Char ((b2 &&& 15) <<< 2), '=']
  | b1 :: b2 :: b3 :: rest =>
    b64Char (b1 >>> 2) :: b64Char (((b1 &&& 3) <<< 4) ||| (b2 >>> 4)) ::
    b64Char (((b2 &&& 15) <<< 2) ||| (b3 >>> 6)) :: b64Char (b3 &&& 63) ::
    base64Encode rest

/-- The fixed GUID of src/main.rs:349. -/
def rfc_defined_uuid : List Char := "258EAFA5-E914-47DA-95CA-C5AB0DC85B11".data

/-- The accept-token computation of src/main.rs:349-354:
`base64(sha1(key ++ GUID))` over the UTF-8 bytes of the concatenation. -/
def computeAccept (key : List Char) : List Char :=
  base64Encode (sha1 (utf8Bytes (key ++ rfc_defined_uuid)))

/-- Whitespace as trimmed by the parser (Rust `str::trim`; the ASCII
whitespace characters, which cover every header this server sees). -/
def isWsp (c : Char) : Bool :=
  c = ' ' || c = '\t' || c = '\r' || c = '\n'

/-- Trim whitespace from both ends of a character string. -/
def trimChars (l : List Char) : List Char :=
  ((l.dropWhile isWsp).reverse.dropWhile isWsp).reverse

/-- Rust `str::split(c)`: split at every occurrence of `c`, keeping empty
pieces, always at least one piece. -/
def splitOnChar (c : Char) : List Char → List (List Char)
  | [] => [[]]
  | x :: xs =>
    if x = c then [] :: splitOnChar c xs
    else
      match splitOnChar c xs with
      | g :: gs => (x :: g) :: gs
      | [] => [[x]]

/-- The parser's `line.split(sep).map(|s| s.trim())` (src/main.rs:312,321). -/
def splitTrim (c : Char) (line : List Char) : List (List Char) :=
  (splitOnChar c line).map trimChars

/-- Rust `str::to_ascii_lowercase` on one character. -/
def asciiLowerChar (c : Char) : Char :=
  if 65 ≤ c.toNat ∧ c.toNat ≤ 90 then Char.ofNat (c.toNat + 32) else c

/-- Rust `str::to_ascii_lowercase` (src/main.rs:322). -/
def asciiLower (s : List Char) : List Char := s.map asciiLowerChar

/-- Rust `str::lines` (src/main.rs:310): pieces between `\n` separators,
the final piece dropped when empty (optional final line ending), and the
`\r` of a `\r\n` ending stripped — a final piece that had no `\n` keeps
a trailing `\r`. -/
def rustLines (s : List Char) : List (List Char) :=
  let parts := splitOnChar '\n' s
  let body := parts.dropLast.map
    (fun t => if t.getLast? = some '\r' then t.dropLast else t)
  match parts.getLast? with
  | some [] => body
  | some last => body ++ [last]
  | none => []

/-- The five header-loop variables of src/main.rs:302-306. -/
structure RequestHeaders where
  method : Option (List Char)
  upgrade : Option (List Char)
  connection : Option (List Char)
  sec_websocket_version : Option (List Char)
  sec_websocket_key : Option (List Char)
deriving DecidableEq

/-- All five variables start as `None` (src/main.rs:302-306). -/
def RequestHeaders.empty : RequestHeaders :=
  { method := none, upgrade := none, connection := none,
    sec_websocket_version := none, sec_websocket_key := none }

/-- The header loop of src/main.rs:310-340 over the lines after the
request line: stop at the first empty line; split each line at `:` with
trimming; `values[1]` out of bounds (a line with no colon) is the Rust
index panic, i.e. `none`; otherwise record the value under whichever of
the four lower-cased header names matches. -/
def procHeaderLines (st : RequestHeaders) : List (List Char) → Option RequestHeaders
  | [] => some st
  | line :: rest =>
    if line = [] then some st
    else
      match splitTrim ':' line with
      | v0 :: v1 :: _ =>
        let key := asciiLower v0
        let st := if key = "upgrade".data then { st with upgrade := some v1 } else st
        let st := if key = "connection".data then { st with connection := some v1 } else st
        let st := if key = "sec-websocket-version".data then
                    { st with sec_websocket_version := some v1 } else st
        let st := if key = "sec-websocket-key".data then
                    { st with sec_websocket_key := some v1 } else st
        procHeaderLines st rest
      | _ => none

/-- The fixed-shape upgrade response of src/main.rs:356-363 around a
computed accept token. -/
def handshakeResponse (accept : List Char) : List Char :=
  "HTTP/1.1 101 OK\r\nUpgrade: websocket\r\nConnection: Upgrade\r\nSec-WebSocket-Accept: ".data
  ++ accept ++ "\r\n\r\n".data

/-- The HTTP arm of the session loop (src/main.rs:284-367): parse the
request lines (the first line's first space-separated piece is the
method), require the key header (`sec_websocket_key.unwrap()`,
src/main.rs:350 — its absence is the panic, `none`, and nothing is
written), and otherwise produce the fixed-shape 101 response carrying
`base64(sha1(key ++ GUID))`. -/
def handshake (request : List Char) : Option (List Char) :=
  let hs? := match rustLines request with
    | [] => some RequestHeaders.empty
    | firstLine :: rest =>
      procHeaderLines
        { RequestHeaders.empty with
            method := some ((splitTrim ' ' firstLine).headD []) } rest
  match hs? with
  | none => none
  | some hs =>
    match hs.sec_websocket_key with
    | none => none
    | some key => some (handshakeResponse (computeAccept key))

/-- Rust `String::from_utf8_lossy` restricted to ASCII bytes, under which
it is the identity embedding byte-per-character (every input the
handshake claims quantify over is ASCII). -/
def lossyChars (bytes : List Nat) : List Char := bytes.map Char.ofNat

/-- One iteration of the per-connection loop (src/main.rs:252-369) as a
step function on `ConnectionState`: before the upgrade the buffer is the
handshake request (one read = one unit, §4.3); once open the buffer is
decoded as a frame and dispatched; after the Close reply's `break` the
loop has been left, so nothing is read or written again (`closed` is
terminal).  `none` is a panic/abort of the reference implementation. -/
def sessionStep (st : ConnectionState) (buffer : List Nat) :
    Option (List WsAction × ConnectionState) :=
  match st with
  | .awaitingHandshake =>
    match handshake (lossyChars buffer) with
    | none => none
    | some resp => some ([WsAction.sendRaw resp], .opened)
  | .opened => (Frame.from_bytes buffer).bind dispatchFrame
  | .closed => some ([], .closed)

/-- Spec-side key lookup, for the refinement comparison of the handshake
claim.  Modelled from the spec (§4.2): among the header lines after the
request line and before the first blank line, the value of the last line
whose lower-cased, trimmed name is the key header, `none` when no such
line exists.  It inspects nothing but key-header lines. -/
def scanKey (acc : Option (List Char)) : List (List Char) → Option (List Char)
  | [] => acc
  | line :: rest =>
    if line = [] then acc
    else
      scanKey
        (match splitTrim ':' line with
         | v0 :: v1 :: _ =>
           if asciiLower v0 = "sec-websocket-key".data then some v1 else acc
         | _ => acc) rest

/-- The key header's value in a request, per the spec's reading. -/
def specKey (lines : List (List Char)) : Option (List Char) :=
  scanKey none (lines.drop 1)

/-- The header section of a request: the lines after the request line up
to the first blank line. -/
def headerSection (lines : List (List Char)) : List (List Char) :=
  (lines.drop 1).takeWhile (fun l => l ≠ [])

/-- A request in the input format of §4.2/§6: every header line before the
blank terminator is a `Key: Value` line, i.e. contains a colon. -/
def wellFormedRequest (lines : List (List Char)) : Prop :=
  ∀ l ∈ headerSection lines, 2 ≤ (splitOnChar ':' l).length

/-- The total byte length a buffer's header implies, in the words of the
frame-decode claim: the 2-byte fixed header, plus the extended length
field the 7-bit selector selects (2 or 8 bytes), plus 4 key bytes if the
mask bit is set, plus the declared payload length.  Bytes the buffer is
missing read as 0, which only lowers the implied length. -/
def impliedLen (buffer : List Nat) : Nat :=
  let b1 := buffer.getD 1 0
  let mlen := if b1 &&& 0x80 != 0 then 4 else 0
  if b1 &&& 0x7F = 126 then
    4 + mlen + u16_from_be (buffer.getD 2 0) (buffer.getD 3 0)
  else if b1 &&& 0x7F = 127 then
    10 + mlen + u64_from_be (buffer.getD 2 0) (buffer.getD 3 0) (buffer.getD 4 0)
      (buffer.getD 5 0) (buffer.getD 6 0) (buffer.getD 7 0) (buffer.getD 8 0)
      (buffer.getD 9 0)
  else 2 + mlen + (b1 &&& 0x7F)

/-- A buffer shorter than its header implies (too short for the fixed
header itself, or for the header plus extension, key and declared
payload). -/
def shorterThanHeaderImplies (buffer : List Nat) : Prop :=
  buffer.length < 2 ∨ buffer.length < impliedLen buffer

/-! ## Helper lemmas -/

theorem maskWith_length (key : List Nat) (i : Nat) (l : List Nat) :
    (maskWith key i l).length = l.length := by
  induction l generalizing i with
  | nil => rfl
  | cons b rest ih => simp [maskWith, ih]

theorem maskWith_maskWith (key : List Nat) (i : Nat) (l : List Nat) :
    maskWith key i (maskWith key i l) = l := by
  induction l generalizing i with
  | nil => rfl
  | cons b rest ih =>
    simp [maskWith, ih, Nat.xor_assoc]

theorem byte0_spec (fin r1 r2 r3 : Bool) (op : Opcode) :
    Opcode.from_u8 (byte0 fin r1 r2 r3 op) = some op
    ∧ ((byte0 fin r1 r2 r3 op) &&& 0x80 != 0) = fin
    ∧ ((byte0 fin r1 r2 r3 op) &&& 0x40 != 0) = r1
    ∧ ((byte0 fin r1 r2 r3 op) &&& 0x20 != 0) = r2
    ∧ ((byte0 fin r1 r2 r3 op) &&& 0x10 != 0) = r3 := by
  cases fin <;> cases r1 <;> cases r2 <;> cases r3 <;> cases op <;> decide

theorem byte1_spec (m : Bool) : ∀ L, L < 128 →
    (((m.toNat <<< 7) ||| L) &&& 0x80 != 0) = m
    ∧ ((m.toNat <<< 7) ||| L) &&& 0x7F = L := by
  cases m <;> decide

theorem u16_be_roundtrip (v : Nat) (h : v < 2 ^ 16) :
    u16_from_be (v / 2 ^ 8 % 256) (v % 256) = v := by
  have h1 : 2 ^ 8 * (v / 2 ^ 8) + v % 2 ^ 8 = v := Nat.div_add_mod v (2 ^ 8)
  have h2 : v / 2 ^ 8 < 256 := by omega
  have h3 : v / 2 ^ 8 % 256 = v / 2 ^ 8 := Nat.mod_eq_of_lt h2
  simp only [u16_from_be, h3]
  omega

/-! ## Claim theorems -/

/-- C2: the Opcode/nibble conversion is a bijection on the six valid
values — each of 0x0, 0x1, 0x2, 0x8, 0x9, 0xA converts to a distinct
Opcode (Continuation, Text, Binary, Close, Ping, Pong respectively) and
converting back yields the identical nibble — while each of the other ten
nibbles (0x3-0x7, 0xB-0xF) is rejected (`none`, the panic), never coerced
to a valid opcode. -/
theorem opcode_wire_bijection :
    (Opcode.from_u8 0x0 = some Opcode.continuation ∧ Opcode.to_u8 Opcode.continuation = 0x0)
    ∧ (Opcode.from_u8 0x1 = some Opcode.text ∧ Opcode.to_u8 Opcode.text = 0x1)
    ∧ (Opcode.from_u8 0x2 = some Opcode.binary ∧ Opcode.to_u8 Opcode.binary = 0x2)
    ∧ (Opcode.from_u8 0x8 = some Opcode.close ∧ Opcode.to_u8 Opcode.close = 0x8)
    ∧ (Opcode.from_u8 0x9 = some Opcode.ping ∧ Opcode.to_u8 Opcode.ping = 0x9)
    ∧ (Opcode.from_u8 0xA = some Opcode.pong ∧ Opcode.to_u8 Opcode.pong = 0xA)
    ∧ [Opcode.continuation, Opcode.text, Opcode.binary,
       Opcode.close, Opcode.ping, Opcode.pong].Nodup
    ∧ Opcode.from_u8 0x3 = none ∧ Opcode.from_u8 0x4 = none
    ∧ Opcode.from_u8 0x5 = none ∧ Opcode.from_u8 0x6 = none
    ∧ Opcode.from_u8 0x7 = none ∧ Opcode.from_u8 0xB = none
    ∧ Opcode.from_u8 0xC = none ∧ Opcode.from_u8 0xD = none
    ∧ Opcode.from_u8 0xE = none ∧ Opcode.from_u8 0xF = none := by
  decide

/-- C10: the byte-to-Opcode conversion looks only at the low nibble —
`Opcode::from(b)` equals `Opcode::from(b & 0x0F)` for every byte (so the
decoder's passing of the whole first header byte, fin/rsv bits included,
cannot change the opcode) — and any byte whose low nibble converts
successfully also converts successfully itself. -/
theorem opcode_low_nibble_only (b : Nat) :
    Opcode.from_u8 b = Opcode.from_u8 (b &&& 0x0F)
    ∧ (∀ op, Opcode.from_u8 (b &&& 0x0F) = some op → Opcode.from_u8 b = some op) := by
  have h15 : (b &&& 0x0F) &&& 0x0F = b &&& 0x0F := by
    have hle : b &&& 0x0F ≤ 0x0F := Nat.and_le_right
    revert hle
    generalize b &&& 0x0F = x
    revert x
    decide
  have heq : Opcode.from_u8 b = Opcode.from_u8 (b &&& 0x0F) := by
    unfold Opcode.from_u8
    rw [h15]
  exact ⟨heq, fun op hop => heq.trans hop⟩

/-- C10 witness: 0x91 has a nonzero high nibble and valid low nibble 0x1,
and both convert to Text. -/
theorem opcode_low_nibble_only_witness :
    Opcode.from_u8 (0x91 &&& 0x0F) = some Opcode.text →
      Opcode.from_u8 0x91 = some Opcode.text :=
  (opcode_low_nibble_only 0x91).2 Opcode.text

set_option maxRecDepth 10000 in
/-- C4: for the client key `dGhlIHNhbXBsZSBub25jZQ==`, the accept token —
base64 of the SHA-1 digest of the key concatenated with the fixed GUID
`258EAFA5-E914-47DA-95CA-C5AB0DC85B11` — equals
`s3pPLMBiTxaQ9kYGzzhZRbK+xOo=` (the RFC 6455 published example). -/
theorem accept_token_rfc_example :
    computeAccept "dGhlIHNhbXBsZSBub25jZQ==".data =
      "s3pPLMBiTxaQ9kYGzzhZRbK+xOo=".data := by
  decide

/-- C6: in the Open state, a decoded Text frame with payload `hello`
makes the session write exactly two outgoing Text frames, each carrying
payload `hello (echoed)` (the input payload with the fixed suffix
`" (echoed)"` appended), with the fixed 3-second delay between the two
sends, and stay Open. -/
theorem text_dispatch_echo_twice (f : Frame) (buffer : List Nat)
    (hdec : Frame.from_bytes buffer = some f)
    (hop : f.opcode = Opcode.text)
    (hp : f.payload = [104, 101, 108, 108, 111]) :
    ∃ r, sessionStep ConnectionState.opened buffer =
        some ([WsAction.send r, WsAction.sleepSecs 3, WsAction.send r],
              ConnectionState.opened)
      ∧ r.opcode = Opcode.text
      ∧ r.payload = [104, 101, 108, 108, 111, 32, 40, 101, 99, 104, 111, 101, 100, 41] := by
  refine ⟨Frame.new Opcode.text (some (echo f.payload)), ?_, rfl, ?_⟩
  · simp [sessionStep, hdec, dispatchFrame, hop]
  · simp [Frame.new, echo, hp, echoSuffix]

/-- C6 witness: the unmasked Text frame `hello` on the wire. -/
theorem text_dispatch_echo_twice_witness :
    ∃ r, sessionStep ConnectionState.opened [0x81, 0x05, 104, 101, 108, 108, 111] =
        some ([WsAction.send r, WsAction.sleepSecs 3, WsAction.send r],
              ConnectionState.opened)
      ∧ r.opcode = Opcode.text
      ∧ r.payload = [104, 101, 108, 108, 111, 32, 40, 101, 99, 104, 111, 101, 100, 41] :=
  text_dispatch_echo_twice
    { fin := true, rsv1 := false, rsv2 := false, rsv3 := false,
      opcode := Opcode.text, mask := false, payload_len := 5,
      masking_key := none, payload := [104, 101, 108, 108, 111] }
    [0x81, 0x05, 104, 101, 108, 108, 111] (by decide) rfl rfl

/-- C7: in the Open state, a decoded Close frame makes the session write
exactly one outgoing Close frame with empty payload and transition to the
Closed state, which is terminal: a closed session reads and processes no
further frames (every step from Closed emits nothing and stays Closed). -/
theorem close_dispatch_terminal (f : Frame) (buffer : List Nat)
    (hdec : Frame.from_bytes buffer = some f)
    (hop : f.opcode = Opcode.close) :
    sessionStep ConnectionState.opened buffer =
      some ([WsAction.send (Frame.new Opcode.close none)], ConnectionState.closed)
    ∧ (Frame.new Opcode.close none).payload = []
    ∧ (∀ b, sessionStep ConnectionState.closed b = some ([], ConnectionState.closed)) := by
  refine ⟨?_, rfl, fun b => rfl⟩
  simp [sessionStep, hdec, dispatchFrame, hop]

/-- C7 witness: the unmasked empty Close frame on the wire. -/
theorem close_dispatch_terminal_witness :
    sessionStep ConnectionState.opened [0x88, 0x00] =
      some ([WsAction.send (Frame.new Opcode.close none)], ConnectionState.closed)
    ∧ (Frame.new Opcode.close none).payload = []
    ∧ (∀ b, sessionStep ConnectionState.closed b = some ([], ConnectionState.closed)) :=
  close_dispatch_terminal
    { fin := true, rsv1 := false, rsv2 := false, rsv3 := false,
      opcode := Opcode.close, mask := false, payload_len := 0,
      masking_key := none, payload := [] }
    [0x88, 0x00] (by decide) rfl

theorem finishDecode_some (fin r1 r2 r3 : Bool) (op : Opcode) (mask : Bool)
    (pl : Nat) (rest : List Nat) (fr : Frame)
    (h : finishDecode fin r1 r2 r3 op mask pl rest = some fr) :
    fr.payload.length = fr.payload_len ∧ fr.masking_key.isSome = fr.mask := by
  unfold finishDecode at h
  cases mask with
  | true =>
    rcases rest with _ | ⟨k0, _ | ⟨k1, _ | ⟨k2, _ | ⟨k3, tail⟩⟩⟩⟩
    · exact absurd h (by simp)
    · exact absurd h (by simp)
    · exact absurd h (by simp)
    · exact absurd h (by simp)
    · replace h : (if tail.length < pl then (none : Option Frame)
          else some { fin := fin, rsv1 := r1, rsv2 := r2, rsv3 := r3, opcode := op,
                      mask := true, payload_len := pl,
                      masking_key := some [k0, k1, k2, k3],
                      payload := maskWith [k0, k1, k2, k3] 0 (List.take pl tail) }) =
          some fr := h
      by_cases hlen : tail.length < pl
      · rw [if_pos hlen] at h
        exact absurd h (by simp)
      · rw [if_neg hlen] at h
        cases h
        refine ⟨?_, rfl⟩
        simp only [maskWith_length, List.length_take]
        omega
  | false =>
    replace h : (if rest.length < pl then (none : Option Frame)
        else some { fin := fin, rsv1 := r1, rsv2 := r2, rsv3 := r3, opcode := op,
                    mask := false, payload_len := pl,
                    masking_key := none, payload := List.take pl rest }) =
        some fr := h
    by_cases hlen : rest.length < pl
    · rw [if_pos hlen] at h
      exact absurd h (by simp)
    · rw [if_neg hlen] at h
      cases h
      refine ⟨?_, rfl⟩
      simp only [List.length_take]
      omega

theorem from_bytes_some (buffer : List Nat) (fr : Frame)
    (h : Frame.from_bytes buffer = some fr) :
    fr.payload.length = fr.payload_len ∧ fr.masking_key.isSome = fr.mask := by
  rcases buffer with _ | ⟨b0, _ | ⟨b1, rest⟩⟩
  · exact absurd h (by simp [Frame.from_bytes])
  · exact absurd h (by simp [Frame.from_bytes])
  · cases hop : Opcode.from_u8 b0 with
    | none =>
      simp only [Frame.from_bytes, hop] at h
      exact absurd h (by simp)
    | some opcode =>
      simp only [Frame.from_bytes, hop] at h
      split at h
      · split at h
        · exact finishDecode_some _ _ _ _ _ _ _ _ _ h
        · exact absurd h (by simp)
      · split at h
        · split at h
          · exact finishDecode_some _ _ _ _ _ _ _ _ _ h
          · exact absurd h (by simp)
        · exact finishDecode_some _ _ _ _ _ _ _ _ _ h

/-- C9: every frame the program constructs satisfies the data-model
invariants — a successfully decoded frame has `payload.len() == payload_len`
and `masking_key` is `Some` iff `mask` is true; every frame built by
`Frame::new` (any opcode, any optional payload) has `mask == false`,
`masking_key == None`, `fin == true`, all three rsv bits false, and
`payload_len` equal to its payload's length. -/
theorem frame_invariants_hold :
    (∀ buffer fr, Frame.from_bytes buffer = some fr →
      fr.payload.length = fr.payload_len ∧ fr.masking_key.isSome = fr.mask)
    ∧ (∀ op payload,
        (Frame.new op payload).mask = false
        ∧ (Frame.new op payload).masking_key = none
        ∧ (Frame.new op payload).fin = true
        ∧ (Frame.new op payload).rsv1 = false
        ∧ (Frame.new op payload).rsv2 = false
        ∧ (Frame.new op payload).rsv3 = false
        ∧ (Frame.new op payload).payload_len = (Frame.new op payload).payload.length) := by
  constructor
  · intro buffer fr h
    exact from_bytes_some buffer fr h
  · intro op payload
    cases payload <;> simp [Frame.new]

/-- C9 witness: the invariants instantiated at a concrete masked decode
and at a concrete `Frame::new`. -/
theorem frame_invariants_hold_witness :
    ((Frame.mk true false false false Opcode.text true 2 (some [1, 2, 3, 4])
        [0x10, 0x20]).payload.length =
      (Frame.mk true false false false Opcode.text true 2 (some [1, 2, 3, 4])
        [0x10, 0x20]).payload_len
    ∧ (Frame.mk true false false false Opcode.text true 2 (some [1, 2, 3, 4])
        [0x10, 0x20]).masking_key.isSome =
      (Frame.mk true false false false Opcode.text true 2 (some [1, 2, 3, 4])
        [0x10, 0x20]).mask)
    ∧ (Frame.new Opcode.pong (some [7])).mask = false
    ∧ (Frame.new Opcode.pong (some [7])).masking_key = none
    ∧ (Frame.new Opcode.pong (some [7])).fin = true
    ∧ (Frame.new Opcode.pong (some [7])).rsv1 = false
    ∧ (Frame.new Opcode.pong (some [7])).rsv2 = false
    ∧ (Frame.new Opcode.pong (some [7])).rsv3 = false
    ∧ (Frame.new Opcode.pong (some [7])).payload_len =
        (Frame.new Opcode.pong (some [7])).payload.length :=
  ⟨frame_invariants_hold.1 [0x81, 0x82, 1, 2, 3, 4, 0x11, 0x22]
      (Frame.mk true false false false Opcode.text true 2 (some [1, 2, 3, 4])
        [0x10, 0x20]) (by decide),
   frame_invariants_hold.2 Opcode.pong (some [7])⟩

theorem finishDecode_none (fin r1 r2 r3 : Bool) (op : Opcode) (mask : Bool)
    (pl : Nat) (rest : List Nat)
    (h : rest.length < (if mask then 4 else 0) + pl) :
    finishDecode fin r1 r2 r3 op mask pl rest = none := by
  unfold finishDecode
  cases mask with
  | true =>
    rcases rest with _ | ⟨k0, _ | ⟨k1, _ | ⟨k2, _ | ⟨k3, tail⟩⟩⟩⟩
    · rfl
    · rfl
    · rfl
    · rfl
    · simp only [List.length_cons, if_pos] at h
      have hlen : tail.length < pl := by omega
      show (if tail.length < pl then (none : Option Frame) else _) = none
      rw [if_pos hlen]
  | false =>
    simp only [Bool.false_eq_true, if_false] at h
    have hlen : rest.length < pl := by omega
    show (if rest.length < pl then (none : Option Frame) else _) = none
    rw [if_pos hlen]

/-- C8: decoding fabricates no frame from a malformed buffer — whenever
the buffer is shorter than its header implies (fixed header, plus the
extended length field the selector picks, plus the masking key if the
mask bit is set, plus the declared payload length), or the opcode nibble
of byte 0 is not one of the six valid values, `Frame::from` fails
(the Rust panic, `none`). -/
theorem from_bytes_rejects_malformed (buffer : List Nat)
    (h : shorterThanHeaderImplies buffer ∨
         (1 ≤ buffer.length ∧ Opcode.from_u8 (buffer.getD 0 0) = none)) :
    Frame.from_bytes buffer = none := by
  rcases buffer with _ | ⟨b0, _ | ⟨b1, rest⟩⟩
  · rfl
  · rfl
  cases hop : Opcode.from_u8 b0 with
  | none => simp [Frame.from_bytes, hop]
  | some opcode =>
    rcases h with hshort | ⟨_, hbad⟩
    · rcases hshort with h2 | himp
      · simp only [List.length_cons] at h2
        omega
      · simp only [impliedLen] at himp
        rw [show (b0 :: b1 :: rest).getD 1 0 = b1 from rfl] at himp
        simp only [Frame.from_bytes, hop]
        by_cases h126 : b1 &&& 0x7F = 126
        · rw [if_pos h126] at himp
          rw [if_pos h126]
          rcases rest with _ | ⟨b2, _ | ⟨b3, rest2⟩⟩
          · rfl
          · rfl
          · rw [show (b0 :: b1 :: b2 :: b3 :: rest2).getD 2 0 = b2 from rfl,
                show (b0 :: b1 :: b2 :: b3 :: rest2).getD 3 0 = b3 from rfl] at himp
            refine finishDecode_none _ _ _ _ _ _ _ _ ?_
            simp only [List.length_cons] at himp
            cases hmask : b1 &&& 0x80 != 0 <;> rw [hmask] at himp <;> simp_all <;> omega
        · rw [if_neg h126] at himp ⊢
          by_cases h127 : b1 &&& 0x7F = 127
          · rw [if_pos h127] at himp ⊢
            rcases rest with _ | ⟨b2, _ | ⟨b3, _ | ⟨b4, _ | ⟨b5, _ | ⟨b6, _ | ⟨b7, _ |
              ⟨b8, _ | ⟨b9, rest2⟩⟩⟩⟩⟩⟩⟩⟩
            · rfl
            · rfl
            · rfl
            · rfl
            · rfl
            · rfl
            · rfl
            · rfl
            · rw [show (b0 :: b1 :: b2 :: b3 :: b4 :: b5 :: b6 :: b7 :: b8 :: b9 :: rest2).getD 2 0 = b2 from rfl,
                  show (b0 :: b1 :: b2 :: b3 :: b4 :: b5 :: b6 :: b7 :: b8 :: b9 :: rest2).getD 3 0 = b3 from rfl,
                  show (b0 :: b1 :: b2 :: b3 :: b4 :: b5 :: b6 :: b7 :: b8 :: b9 :: rest2).getD 4 0 = b4 from rfl,
                  show (b0 :: b1 :: b2 :: b3 :: b4 :: b5 :: b6 :: b7 :: b8 :: b9 :: rest2).getD 5 0 = b5 from rfl,
                  show (b0 :: b1 :: b2 :: b3 :: b4 :: b5 :: b6 :: b7 :: b8 :: b9 :: rest2).getD 6 0 = b6 from rfl,
                  show (b0 :: b1 :: b2 :: b3 :: b4 :: b5 :: b6 :: b7 :: b8 :: b9 :: rest2).getD 7 0 = b7 from rfl,
                  show (b0 :: b1 :: b2 :: b3 :: b4 :: b5 :: b6 :: b7 :: b8 :: b9 :: rest2).getD 8 0 = b8 from rfl,
                  show (b0 :: b1 :: b2 :: b3 :: b4 :: b5 :: b6 :: b7 :: b8 :: b9 :: rest2).getD 9 0 = b9 from rfl] at himp
              refine finishDecode_none _ _ _ _ _ _ _ _ ?_
              simp only [List.length_cons] at himp
              cases hmask : b1 &&& 0x80 != 0 <;> rw [hmask] at himp <;> simp_all <;> omega
          · rw [if_neg h127] at himp ⊢
            refine finishDecode_none _ _ _ _ _ _ _ _ ?_
            simp only [List.length_cons] at himp
            cases hmask : b1 &&& 0x80 != 0 <;> rw [hmask] at himp <;> simp_all <;> omega
    · rw [show (b0 :: b1 :: rest).getD 0 0 = b0 from rfl] at hbad
      rw [hop] at hbad
      exact absurd hbad (by simp)

/-- C8 witness: a buffer with only one byte is shorter than the fixed
header, and decode rejects it. -/
theorem from_bytes_rejects_malformed_witness :
    Frame.from_bytes [0x81] = none :=
  from_bytes_rejects_malformed [0x81] (Or.inl (Or.inl (by decide)))

theorem to_bytes_shape (f : Frame) (bs : List Nat) (henc : f.to_bytes = some bs) :
    ∃ t, bs = byte0 f.fin f.rsv1 f.rsv2 f.rsv3 f.opcode ::
      (lenField f.mask f.payload_len ++ t) := by
  simp only [Frame.to_bytes] at henc
  split at henc
  · split at henc
    · exact absurd henc (by simp)
    · rename_i key heq
      refine ⟨key ++ maskWith key 0 f.payload, ?_⟩
      have := Option.some.inj henc
      rw [← this]
      simp
  · refine ⟨f.payload, ?_⟩
    have := Option.some.inj henc
    rw [← this]
    simp

/-- C3: encoding selects the payload-length field width from the payload
length — a frame of payload length 125 carries it literally in the 7-bit
selector (second byte's low 7 bits equal 125, payload follows at once);
lengths 126 and 65535 are encoded as selector 126 followed by the length
as a 2-byte big-endian integer; length 65536 as selector 127 followed by
the length as an 8-byte big-endian integer. -/
theorem length_field_selection (f : Frame) (bs : List Nat)
    (henc : f.to_bytes = some bs) :
    (f.payload_len = 125 → ∃ b1 t,
      bs = byte0 f.fin f.rsv1 f.rsv2 f.rsv3 f.opcode :: b1 :: t ∧ b1 &&& 0x7F = 125)
    ∧ (f.payload_len = 126 → ∃ b1 t,
      bs = byte0 f.fin f.rsv1 f.rsv2 f.rsv3 f.opcode :: b1 :: 0 :: 126 :: t ∧ b1 &&& 0x7F = 126)
    ∧ (f.payload_len = 65535 → ∃ b1 t,
      bs = byte0 f.fin f.rsv1 f.rsv2 f.rsv3 f.opcode :: b1 :: 255 :: 255 :: t ∧ b1 &&& 0x7F = 126)
    ∧ (f.payload_len = 65536 → ∃ b1 t,
      bs = byte0 f.fin f.rsv1 f.rsv2 f.rsv3 f.opcode :: b1 :: 0 :: 0 :: 0 :: 0 :: 0 :: 1 :: 0 :: 0 :: t
        ∧ b1 &&& 0x7F = 127) := by
  obtain ⟨t, ht⟩ := to_bytes_shape f bs henc
  refine ⟨?_, ?_, ?_, ?_⟩ <;> intro hpl <;> rw [hpl] at ht <;>
    cases hm : f.mask <;> rw [hm] at ht
  · exact ⟨125, t, by simpa [lenField] using ht, by decide⟩
  · exact ⟨253, t, by simpa [lenField] using ht, by decide⟩
  · exact ⟨126, t, by simpa [lenField, u16_be_bytes] using ht, by decide⟩
  · exact ⟨254, t, by simpa [lenField, u16_be_bytes] using ht, by decide⟩
  · exact ⟨126, t, by simpa [lenField, u16_be_bytes] using ht, by decide⟩
  · exact ⟨254, t, by simpa [lenField, u16_be_bytes] using ht, by decide⟩
  · exact ⟨127, t, by simpa [lenField, u64_be_bytes] using ht, by decide⟩
  · exact ⟨255, t, by simpa [lenField, u64_be_bytes] using ht, by decide⟩

/-- C3 witness: the four boundary lengths on concrete unmasked frames
(`payload_len` drives the length field; the empty payload keeps the
buffers small). -/
theorem length_field_selection_witness :
    (∃ b1 t, [0x81, 125] = byte0 true false false false Opcode.text :: b1 :: t
      ∧ b1 &&& 0x7F = 125)
    ∧ (∃ b1 t, [0x81, 126, 0, 126] = byte0 true false false false Opcode.text :: b1 :: 0 :: 126 :: t
      ∧ b1 &&& 0x7F = 126)
    ∧ (∃ b1 t, [0x81, 126, 255, 255] = byte0 true false false false Opcode.text :: b1 :: 255 :: 255 :: t
      ∧ b1 &&& 0x7F = 126)
    ∧ (∃ b1 t, [0x81, 127, 0, 0, 0, 0, 0, 1, 0, 0] =
        byte0 true false false false Opcode.text :: b1 :: 0 :: 0 :: 0 :: 0 :: 0 :: 1 :: 0 :: 0 :: t
      ∧ b1 &&& 0x7F = 127) :=
  ⟨(length_field_selection
      (Frame.mk true false false false Opcode.text false 125 none [])
      [0x81, 125] (by decide)).1 rfl,
   (length_field_selection
      (Frame.mk true false false false Opcode.text false 126 none [])
      [0x81, 126, 0, 126] (by decide)).2.1 rfl,
   (length_field_selection
      (Frame.mk true false false false Opcode.text false 65535 none [])
      [0x81, 126, 255, 255] (by decide)).2.2.1 rfl,
   (length_field_selection
      (Frame.mk true false false false Opcode.text false 65536 none [])
      [0x81, 127, 0, 0, 0, 0, 0, 1, 0, 0] (by decide)).2.2.2 rfl⟩

theorem u64_be_roundtrip (v : Nat) (h : v < 2 ^ 64) :
    u64_from_be (v / 2 ^ 56 % 256) (v / 2 ^ 48 % 256) (v / 2 ^ 40 % 256)
      (v / 2 ^ 32 % 256) (v / 2 ^ 24 % 256) (v / 2 ^ 16 % 256)
      (v / 2 ^ 8 % 256) (v % 256) = v := by
  simp only [u64_from_be]
  omega

theorem from_bytes_cons (fin r1 r2 r3 : Bool) (op : Opcode) (b1 : Nat) (rest : List Nat) :
    Frame.from_bytes (byte0 fin r1 r2 r3 op :: b1 :: rest) =
      (if b1 &&& 0x7F = 126 then
        match rest with
        | b2 :: b3 :: rest2 =>
          finishDecode fin r1 r2 r3 op (b1 &&& 0x80 != 0) (u16_from_be b2 b3) rest2
        | _ => none
      else if b1 &&& 0x7F = 127 then
        match rest with
        | b2 :: b3 :: b4 :: b5 :: b6 :: b7 :: b8 :: b9 :: rest2 =>
          finishDecode fin r1 r2 r3 op (b1 &&& 0x80 != 0)
            (u64_from_be b2 b3 b4 b5 b6 b7 b8 b9) rest2
        | _ => none
      else finishDecode fin r1 r2 r3 op (b1 &&& 0x80 != 0) (b1 &&& 0x7F) rest) := by
  obtain ⟨hb0op, hfin, hr1, hr2, hr3⟩ := byte0_spec fin r1 r2 r3 op
  simp only [Frame.from_bytes, hb0op, hfin, hr1, hr2, hr3]

theorem finishDecode_exact_false (fin r1 r2 r3 : Bool) (op : Opcode) (pl : Nat)
    (p : List Nat) (h : pl = p.length) :
    finishDecode fin r1 r2 r3 op false pl p =
      some (Frame.mk fin r1 r2 r3 op false pl none p) := by
  subst h
  unfold finishDecode
  simp

theorem finishDecode_exact_true (fin r1 r2 r3 : Bool) (op : Opcode) (pl : Nat)
    (k0 k1 k2 k3 : Nat) (p : List Nat) (h : pl = p.length) :
    finishDecode fin r1 r2 r3 op true pl
        (k0 :: k1 :: k2 :: k3 :: maskWith [k0, k1, k2, k3] 0 p) =
      some (Frame.mk fin r1 r2 r3 op true pl (some [k0, k1, k2, k3]) p) := by
  subst h
  unfold finishDecode
  have hlen := maskWith_length [k0, k1, k2, k3] 0 p
  simp [maskWith_length]
  rw [← hlen, List.take_length, maskWith_maskWith]

/-- C1: decoding the encoding is the identity on consistent frames — for
every Frame with `payload_len` equal to its payload's length and
`masking_key` present iff `mask` is set (with the key's 4 bytes, and a
`usize` payload length), `Frame::from(frame.to_bytes())` returns the
frame unchanged; masked frames included, where applying the XOR mask when
encoding and removing it with the same key when decoding restores the
payload. -/
theorem decode_encode_roundtrip (f : Frame)
    (hlen : f.payload_len = f.payload.length)
    (hmk : f.masking_key.isSome = f.mask)
    (hk4 : ∀ k, f.masking_key = some k → k.length = 4)
    (hpl : f.payload_len < 2 ^ 64) :
    f.to_bytes.bind Frame.from_bytes = some f := by
  rcases f with ⟨fin, r1, r2, r3, op, mask, pl, mk, p⟩
  change pl = p.length at hlen
  change mk.isSome = mask at hmk
  change pl < 2 ^ 64 at hpl
  change ∀ k, mk = some k → k.length = 4 at hk4
  cases mask with
  | false =>
    have hmknone : mk = none := by
      cases mk
      · rfl
      · simp at hmk
    subst hmknone
    simp only [Frame.to_bytes, Option.some_bind, Bool.false_eq_true, if_false]
    by_cases h126 : pl < 126
    · have hmod : pl % 256 = pl := Nat.mod_eq_of_lt (by omega)
      simp only [lenField, if_pos h126, hmod, List.cons_append, List.nil_append,
        List.singleton_append]
      rw [from_bytes_cons]
      obtain ⟨hm, hsel⟩ := byte1_spec false pl (by omega)
      rw [hsel, hm]
      rw [if_neg (by omega : ¬pl = 126), if_neg (by omega : ¬pl = 127)]
      exact finishDecode_exact_false fin r1 r2 r3 op pl p hlen
    · by_cases h65536 : pl < 65536
      · have hmod : pl % 2 ^ 16 = pl := Nat.mod_eq_of_lt (by omega)
        simp only [lenField, if_neg (by omega : ¬pl < 126), if_pos h65536, hmod,
          u16_be_bytes, List.cons_append, List.nil_append]
        rw [from_bytes_cons]
        obtain ⟨hm, hsel⟩ := byte1_spec false 126 (by omega)
        rw [hsel, hm]
        rw [if_pos rfl]
        show finishDecode fin r1 r2 r3 op false
          (u16_from_be (pl / 2 ^ 8 % 256) (pl % 256)) p = _
        rw [u16_be_roundtrip pl (by omega)]
        exact finishDecode_exact_false fin r1 r2 r3 op pl p hlen
      · have hmod : pl % 2 ^ 64 = pl := Nat.mod_eq_of_lt hpl
        simp only [lenField, if_neg (by omega : ¬pl < 126),
          if_neg (by omega : ¬pl < 65536), hmod, u64_be_bytes,
          List.cons_append, List.nil_append]
        rw [from_bytes_cons]
        obtain ⟨hm, hsel⟩ := byte1_spec false 127 (by omega)
        rw [hsel, hm]
        rw [if_neg (by omega : ¬(127 : Nat) = 126), if_pos rfl]
        show finishDecode fin r1 r2 r3 op false
          (u64_from_be (pl / 2 ^ 56 % 256) (pl / 2 ^ 48 % 256) (pl / 2 ^ 40 % 256)
            (pl / 2 ^ 32 % 256) (pl / 2 ^ 24 % 256) (pl / 2 ^ 16 % 256)
            (pl / 2 ^ 8 % 256) (pl % 256)) p = _
        rw [u64_be_roundtrip pl hpl]
        exact finishDecode_exact_false fin r1 r2 r3 op pl p hlen
  | true =>
    obtain ⟨k, hk⟩ : ∃ k, mk = some k := by
      cases mk with
      | none => simp at hmk
      | some k => exact ⟨k, rfl⟩
    subst hk
    obtain ⟨k0, k1, k2, k3, hkeq⟩ : ∃ a b c d, k = [a, b, c, d] := by
      have h4 : k.length = 4 := hk4 k rfl
      rcases k with _ | ⟨a, _ | ⟨b, _ | ⟨c, _ | ⟨d, _ | ⟨e, tl⟩⟩⟩⟩⟩ <;>
        simp_all
    subst hkeq
    simp only [Frame.to_bytes, Option.some_bind, if_pos, List.append_assoc,
      List.cons_append, List.nil_append]
    by_cases h126 : pl < 126
    · have hmod : pl % 256 = pl := Nat.mod_eq_of_lt (by omega)
      simp only [lenField, if_pos h126, hmod, List.cons_append, List.nil_append,
        List.singleton_append]
      rw [from_bytes_cons]
      obtain ⟨hm, hsel⟩ := byte1_spec true pl (by omega)
      rw [hsel, hm]
      rw [if_neg (by omega : ¬pl = 126), if_neg (by omega : ¬pl = 127)]
      exact finishDecode_exact_true fin r1 r2 r3 op pl k0 k1 k2 k3 p hlen
    · by_cases h65536 : pl < 65536
      · have hmod : pl % 2 ^ 16 = pl := Nat.mod_eq_of_lt (by omega)
        simp only [lenField, if_neg (by omega : ¬pl < 126), if_pos h65536, hmod,
          u16_be_bytes, List.cons_append, List.nil_append]
        rw [from_bytes_cons]
        obtain ⟨hm, hsel⟩ := byte1_spec true 126 (by omega)
        rw [hsel, hm]
        rw [if_pos rfl]
        show finishDecode fin r1 r2 r3 op true
          (u16_from_be (pl / 2 ^ 8 % 256) (pl % 256))
          (k0 :: k1 :: k2 :: k3 :: maskWith [k0, k1, k2, k3] 0 p) = _
        rw [u16_be_roundtrip pl (by omega)]
        exact finishDecode_exact_true fin r1 r2 r3 op pl k0 k1 k2 k3 p hlen
      · have hmod : pl % 2 ^ 64 = pl := Nat.mod_eq_of_lt hpl
        simp only [lenField, if_neg (by omega : ¬pl < 126),
          if_neg (by omega : ¬pl < 65536), hmod, u64_be_bytes,
          List.cons_append, List.nil_append]
        rw [from_bytes_cons]
        obtain ⟨hm, hsel⟩ := byte1_spec true 127 (by omega)
        rw [hsel, hm]
        rw [if_neg (by omega : ¬(127 : Nat) = 126), if_pos rfl]
        show finishDecode fin r1 r2 r3 op true
          (u64_from_be (pl / 2 ^ 56 % 256) (pl / 2 ^ 48 % 256) (pl / 2 ^ 40 % 256)
            (pl / 2 ^ 32 % 256) (pl / 2 ^ 24 % 256) (pl / 2 ^ 16 % 256)
            (pl / 2 ^ 8 % 256) (pl % 256))
          (k0 :: k1 :: k2 :: k3 :: maskWith [k0, k1, k2, k3] 0 p) = _
        rw [u64_be_roundtrip pl hpl]
        exact finishDecode_exact_true fin r1 r2 r3 op pl k0 k1 k2 k3 p hlen

/-- C1 witness: a masked Binary frame round-trips through the codec. -/
theorem decode_encode_roundtrip_witness :
    (Frame.mk true false false false Opcode.binary true 2 (some [1, 2, 3, 4])
        [0x10, 0x20]).to_bytes.bind Frame.from_bytes =
      some (Frame.mk true false false false Opcode.binary true 2 (some [1, 2, 3, 4])
        [0x10, 0x20]) :=
  decode_encode_roundtrip
    (Frame.mk true false false false Opcode.binary true 2 (some [1, 2, 3, 4])
      [0x10, 0x20])
    rfl rfl (by intro k hk; cases hk; rfl) (by decide)

theorem procHeaderLines_key (ls : List (List Char)) : ∀ st : RequestHeaders,
    (∀ l ∈ ls.takeWhile (fun l => l ≠ []), 2 ≤ (splitOnChar ':' l).length) →
    ∃ st2, procHeaderLines st ls = some st2 ∧
      st2.sec_websocket_key = scanKey st.sec_websocket_key ls := by
  induction ls with
  | nil =>
    intro st hwf
    exact ⟨st, rfl, rfl⟩
  | cons line rest ih =>
    intro st hwf
    by_cases hline : line = []
    · subst hline
      exact ⟨st, by simp [procHeaderLines], by simp [scanKey]⟩
    · have hcons : List.takeWhile (fun (l : List Char) => decide (l ≠ [])) (line :: rest) =
          line :: List.takeWhile (fun (l : List Char) => decide (l ≠ [])) rest := by
        rw [List.takeWhile_cons]
        simp [hline]
      have hwfline : 2 ≤ (splitOnChar ':' line).length := by
        apply hwf
        rw [hcons]
        exact List.mem_cons_self _ _
      have hwfrest : ∀ l ∈ rest.takeWhile (fun l => l ≠ []),
          2 ≤ (splitOnChar ':' l).length := by
        intro l hl
        apply hwf
        rw [hcons]
        exact List.mem_cons_of_mem _ hl
      obtain ⟨v0, v1, vt, hsplit⟩ : ∃ v0 v1 vt, splitTrim ':' line = v0 :: v1 :: vt := by
        unfold splitTrim
        rcases hsp : splitOnChar ':' line with _ | ⟨a, _ | ⟨b, t⟩⟩
        · rw [hsp] at hwfline
          simp at hwfline
        · rw [hsp] at hwfline
          simp at hwfline
        · exact ⟨trimChars a, trimChars b, t.map trimChars, by simp⟩
      obtain ⟨st2, hrun, hkey⟩ := ih
        (let st1 := if asciiLower v0 = "upgrade".data then { st with upgrade := some v1 } else st
         let st2 := if asciiLower v0 = "connection".data then { st1 with connection := some v1 } else st1
         let st3 := if asciiLower v0 = "sec-websocket-version".data then
                      { st2 with sec_websocket_version := some v1 } else st2
         if asciiLower v0 = "sec-websocket-key".data then
            { st3 with sec_websocket_key := some v1 } else st3)
        hwfrest
      refine ⟨st2, ?_, ?_⟩
      · rw [show procHeaderLines st (line :: rest) =
            procHeaderLines
              (let st1 := if asciiLower v0 = "upgrade".data then { st with upgrade := some v1 } else st
               let st2 := if asciiLower v0 = "connection".data then { st1 with connection := some v1 } else st1
               let st3 := if asciiLower v0 = "sec-websocket-version".data then
                            { st2 with sec_websocket_version := some v1 } else st2
               if asciiLower v0 = "sec-websocket-key".data then
                  { st3 with sec_websocket_key := some v1 } else st3) rest from by
            simp only [procHeaderLines, if_neg hline, hsplit]]
        exact hrun
      · rw [hkey]
        have hfield :
            (let st1 := if asciiLower v0 = "upgrade".data then { st with upgrade := some v1 } else st
             let st2 := if asciiLower v0 = "connection".data then { st1 with connection := some v1 } else st1
             let st3 := if asciiLower v0 = "sec-websocket-version".data then
                          { st2 with sec_websocket_version := some v1 } else st2
             if asciiLower v0 = "sec-websocket-key".data then
                { st3 with sec_websocket_key := some v1 } else st3).sec_websocket_key =
            (if asciiLower v0 = "sec-websocket-key".data then some v1
             else st.sec_websocket_key) := by
          by_cases c1 : asciiLower v0 = "upgrade".data <;>
            by_cases c2 : asciiLower v0 = "connection".data <;>
              by_cases c3 : asciiLower v0 = "sec-websocket-version".data <;>
                by_cases c4 : asciiLower v0 = "sec-websocket-key".data <;>
                  simp [c1, c2, c3, c4]
        rw [hfield]
        rw [show scanKey st.sec_websocket_key (line :: rest) =
            scanKey (if asciiLower v0 = "sec-websocket-key".data then some v1
                     else st.sec_websocket_key) rest from by
          simp only [scanKey, if_neg hline, hsplit]]

/-- C5: over requests in the spec's input format (every header line before
the blank terminator is a `Key: Value` line), handshake negotiation fails —
no response produced, the `unwrap` panic — exactly when the
Sec-WebSocket-Key header is absent; when the header is present (value of
its last occurrence `k`), negotiation succeeds with exactly the
fixed-shape 101 response around the computed accept token, regardless of
the values or absence of the Upgrade, Connection and
Sec-WebSocket-Version headers and of the request method, none of which
`specKey` inspects. -/
theorem handshake_requires_key_only (request : List Char)
    (hwf : wellFormedRequest (rustLines request)) :
    (handshake request = none ↔ specKey (rustLines request) = none)
    ∧ (∀ k, specKey (rustLines request) = some k →
        handshake request = some (handshakeResponse (computeAccept k))) := by
  cases hls : rustLines request with
  | nil =>
    have hh : handshake request = none := by
      unfold handshake
      rw [hls]
      rfl
    rw [hh]
    simp [specKey, scanKey]
  | cons first rest =>
    have hwf' : ∀ l ∈ rest.takeWhile (fun l => l ≠ []),
        2 ≤ (splitOnChar ':' l).length := by
      intro l hl
      apply hwf
      unfold headerSection
      rw [hls]
      simpa using hl
    obtain ⟨st2, hrun, hkey⟩ := procHeaderLines_key rest
      { RequestHeaders.empty with method := some ((splitTrim ' ' first).headD []) } hwf'
    have hh : handshake request =
        (match scanKey none rest with
         | none => none
         | some k0 => some (handshakeResponse (computeAccept k0))) := by
      unfold handshake
      rw [hls]
      show (match procHeaderLines
              { RequestHeaders.empty with
                  method := some ((splitTrim ' ' first).headD []) } rest with
            | none => none
            | some hs =>
              match hs.sec_websocket_key with
              | none => none
              | some key => some (handshakeResponse (computeAccept key))) = _
      rw [hrun]
      show (match st2.sec_websocket_key with
            | none => none
            | some key => some (handshakeResponse (computeAccept key))) = _
      rw [hkey]
      rfl
    rw [hh]
    unfold specKey
    simp only [List.drop_succ_cons, List.drop_zero]
    cases hsk : scanKey none rest with
    | none => simp
    | some k0 => simp

set_option maxRecDepth 10000 in
/-- C5 witness: a well-formed upgrade request carrying the RFC example
key; the handshake emits the fixed-shape response with its accept
token. -/
theorem handshake_requires_key_only_witness :
    handshake "GET / HTTP/1.1\r\nUpgrade: websocket\r\nSec-WebSocket-Key: dGhlIHNhbXBsZSBub25jZQ==\r\n\r\n".data =
      some (handshakeResponse (computeAccept "dGhlIHNhbXBsZSBub25jZQ==".data)) :=
  (handshake_requires_key_only
      "GET / HTTP/1.1\r\nUpgrade: websocket\r\nSec-WebSocket-Key: dGhlIHNhbXBsZSBub25jZQ==\r\n\r\n".data
      (by unfold wellFormedRequest; decide)).2
    "dGhlIHNhbXBsZSBub25jZQ==".data (by decide)
